import Mathlib

/-!
Verification of the per-identity message admission controller (rate limiter)
found in the Telegram client sources.  The JavaScript core is:

  const RATE_LIMITS = { MAX_MESSAGES, TIMEFRAME, COOLDOWN };
  const userRateLimits = new Map<string, { timestamps: number[]; cooldownUntil: number }>();
  function isUserRateLimited(userId) {
      const now = Date.now();
      const userRateData = userRateLimits.get(userId);
      if (!userRateData) {
          userRateLimits.set(userId, { timestamps: [now], cooldownUntil: 0 });
          return false;
      }
      if (userRateData.cooldownUntil > now) return true;
      userRateData.timestamps =
          userRateData.timestamps.filter(ts => now - ts <= RATE_LIMITS.TIMEFRAME);
      if (userRateData.timestamps.length >= RATE_LIMITS.MAX_MESSAGES) {
          userRateData.cooldownUntil = now + RATE_LIMITS.COOLDOWN;
          return true;
      }
      userRateData.timestamps.push(now);
      return false;
  }

Timestamps are millisecond clock readings, embedded as Nat.  The JS filter
condition `now - ts <= TIMEFRAME` agrees with the Nat-subtraction version:
when ts > now the JS difference is negative (kept) and the Nat difference is
zero (kept).  The Boolean result follows the source: `true` means the user is
rate-limited (Reject), `false` means the message is admitted (Admit).
-/

/-- Per-deployment configuration constants, mirroring the RATE_LIMITS object. -/
structure RateLimits where
  maxMessages : Nat
  timeframe : Nat
  cooldown : Nat
deriving DecidableEq, Repr

/-- Per-identity record stored in the userRateLimits map. -/
structure RateState where
  timestamps : List Nat
  cooldownUntil : Nat
deriving DecidableEq, Repr

/-- Configuration of the strict profile (src/unnamed/part_000). -/
def RATE_LIMITS : RateLimits :=
  { maxMessages := 5, timeframe := 60000, cooldown := 300000 }

/-- Configuration of the permissive profile
(src/packages/client-telegram/src/telegramClient.ts). -/
def RATE_LIMITS_PERMISSIVE : RateLimits :=
  { maxMessages := 100, timeframe := 60000, cooldown := 300000 }

/-- Core of isUserRateLimited acting on the state of a single identity:
given the looked-up record (none when the identity is absent from the map)
and the current clock reading, return the decision (true = rate-limited)
and the record stored for the identity afterwards. -/
def isUserRateLimitedState (cfg : RateLimits) (data : Option RateState) (now : Nat) :
    Bool × RateState :=
  match data with
  | none => (false, { timestamps := [now], cooldownUntil := 0 })
  | some userRateData =>
    if now < userRateData.cooldownUntil then
      (true, userRateData)
    else
      let ts := userRateData.timestamps.filter (fun t => now - t ≤ cfg.timeframe)
      if cfg.maxMessages ≤ ts.length then
        (true, { timestamps := ts, cooldownUntil := now + cfg.cooldown })
      else
        (false, { timestamps := ts ++ [now], cooldownUntil := userRateData.cooldownUntil })

/-- The userRateLimits map, as a function from identity to optional record. -/
def Store : Type := String → Option RateState

/-- The full isUserRateLimited operation: look the identity up in the map,
run the per-identity core, and store the updated record back. -/
def isUserRateLimited (cfg : RateLimits) (m : Store) (userId : String) (now : Nat) :
    Bool × Store :=
  let r := isUserRateLimitedState cfg (m userId) now
  (r.1, fun id => if id = userId then some r.2 else m id)

/-- A sequence of checks for one identity, threading the per-identity state;
returns the list of decisions and the final state. -/
def runChecks (cfg : RateLimits) : Option RateState → List Nat → List Bool × Option RateState
  | s, [] => ([], s)
  | s, n :: ns =>
    let r := isUserRateLimitedState cfg s n
    let rest := runChecks cfg (some r.2) ns
    (r.1 :: rest.1, rest.2)

/-- A sequence of checks for one identity against the shared map. -/
def runStore (cfg : RateLimits) (m : Store) (userId : String) : List Nat → Store
  | [] => m
  | n :: ns => runStore cfg (isUserRateLimited cfg m userId n).2 userId ns

/-- The strict-profile isUserRateLimited core exactly as written in
src/unnamed/part_000, with the literal RATE_LIMITS constants of that file
(MAX_MESSAGES 5, TIMEFRAME 60000, COOLDOWN 300000) inlined. -/
def isUserRateLimitedStrict (data : Option RateState) (now : Nat) : Bool × RateState :=
  match data with
  | none => (false, { timestamps := [now], cooldownUntil := 0 })
  | some userRateData =>
    if now < userRateData.cooldownUntil then
      (true, userRateData)
    else
      let ts := userRateData.timestamps.filter (fun t => now - t ≤ 60000)
      if 5 ≤ ts.length then
        (true, { timestamps := ts, cooldownUntil := now + 300000 })
      else
        (false, { timestamps := ts ++ [now], cooldownUntil := userRateData.cooldownUntil })

/-- The permissive-profile isUserRateLimited core exactly as written in
src/packages/client-telegram/src/telegramClient.ts, with the literal
RATE_LIMITS constants of that file (MAX_MESSAGES 100, TIMEFRAME 60000,
COOLDOWN 300000) inlined. -/
def isUserRateLimitedPermissive (data : Option RateState) (now : Nat) : Bool × RateState :=
  match data with
  | none => (false, { timestamps := [now], cooldownUntil := 0 })
  | some userRateData =>
    if now < userRateData.cooldownUntil then
      (true, userRateData)
    else
      let ts := userRateData.timestamps.filter (fun t => now - t ≤ 60000)
      if 100 ≤ ts.length then
        (true, { timestamps := ts, cooldownUntil := now + 300000 })
      else
        (false, { timestamps := ts ++ [now], cooldownUntil := userRateData.cooldownUntil })

/-- C2: a check on an identity whose cooldownUntil is strictly greater than now
returns Reject (true) and leaves the whole map, and in particular the
record of that identity, completely unchanged. -/
theorem cooldown_rejects_without_mutation (cfg : RateLimits) (m : Store)
    (userId : String) (now : Nat) (s : RateState)
    (hm : m userId = some s) (h : now < s.cooldownUntil) :
    (isUserRateLimited cfg m userId now).1 = true ∧
      ∀ id, (isUserRateLimited cfg m userId now).2 id = m id :=
  by
    constructor
    · simp [isUserRateLimited, isUserRateLimitedState, hm, h]
    · intro id
      by_cases hid : id = userId
      · subst hid
        simp [isUserRateLimited, isUserRateLimitedState, hm, h]
      · simp [isUserRateLimited, hid]

/-- Witness for cooldown_rejects_without_mutation at a concrete map and time. -/
theorem cooldown_rejects_without_mutation_witness :
    (fun id => if id = "u1" then
        some { timestamps := [10, 20], cooldownUntil := 500 } else none : Store) "u1"
      = some { timestamps := [10, 20], cooldownUntil := 500 } ∧
    (100 : Nat) < (500 : Nat) ∧
    (isUserRateLimited RATE_LIMITS
      (fun id => if id = "u1" then
        some { timestamps := [10, 20], cooldownUntil := 500 } else none) "u1" 100).1 = true :=
  ⟨by simp, by decide,
    (cooldown_rejects_without_mutation RATE_LIMITS _ "u1" 100
      { timestamps := [10, 20], cooldownUntil := 500 } (by simp) (by decide)).1⟩

/-- C4: the first-ever check for an identity (absent from the map) returns
Admit (false) and afterwards the record of that identity is exactly one timestamp,
the current time, with no cooldown armed. -/
theorem first_check_admits (cfg : RateLimits) (m : Store) (userId : String) (now : Nat)
    (hm : m userId = none) :
    (isUserRateLimited cfg m userId now).1 = false ∧
      (isUserRateLimited cfg m userId now).2 userId
        = some { timestamps := [now], cooldownUntil := 0 } :=
  by
    constructor
    · simp [isUserRateLimited, isUserRateLimitedState, hm]
    · simp [isUserRateLimited, isUserRateLimitedState, hm]

/-- Witness for first_check_admits on the empty map. -/
theorem first_check_admits_witness :
    (fun _ => none : Store) "u1" = none ∧
    (isUserRateLimited RATE_LIMITS (fun _ => none) "u1" 42).1 = false ∧
    (isUserRateLimited RATE_LIMITS (fun _ => none) "u1" 42).2 "u1"
      = some { timestamps := [42], cooldownUntil := 0 } :=
  ⟨rfl, (first_check_admits RATE_LIMITS (fun _ => none) "u1" 42 rfl).1,
    (first_check_admits RATE_LIMITS (fun _ => none) "u1" 42 rfl).2⟩

/-- Branch lemma: an identity still inside its cooldown window is rejected
with its record unchanged. -/
theorem isUserRateLimitedState_cooldown (cfg : RateLimits) (l : List Nat) (cd now : Nat)
    (h : now < cd) :
    isUserRateLimitedState cfg (some { timestamps := l, cooldownUntil := cd }) now
      = (true, { timestamps := l, cooldownUntil := cd }) :=
  by
    simp only [isUserRateLimitedState]
    rw [if_pos h]

/-- Branch lemma: with the cooldown expired and the pruned window full, the
check rejects and arms a fresh cooldown from now. -/
theorem isUserRateLimitedState_full (cfg : RateLimits) (l : List Nat) (cd now : Nat)
    (h1 : ¬ now < cd)
    (h2 : cfg.maxMessages ≤ (l.filter (fun t => now - t ≤ cfg.timeframe)).length) :
    isUserRateLimitedState cfg (some { timestamps := l, cooldownUntil := cd }) now
      = (true, { timestamps := l.filter (fun t => now - t ≤ cfg.timeframe),
                 cooldownUntil := now + cfg.cooldown }) :=
  by
    simp only [isUserRateLimitedState]
    rw [if_neg h1, if_pos h2]

/-- Branch lemma: with the cooldown expired and room in the pruned window, the
check admits and appends the current time, leaving cooldownUntil untouched. -/
theorem isUserRateLimitedState_admits (cfg : RateLimits) (l : List Nat) (cd now : Nat)
    (h1 : ¬ now < cd)
    (h2 : ¬ cfg.maxMessages ≤ (l.filter (fun t => now - t ≤ cfg.timeframe)).length) :
    isUserRateLimitedState cfg (some { timestamps := l, cooldownUntil := cd }) now
      = (false, { timestamps := l.filter (fun t => now - t ≤ cfg.timeframe) ++ [now],
                  cooldownUntil := cd }) :=
  by
    simp only [isUserRateLimitedState]
    rw [if_neg h1, if_neg h2]

/-- Helper for the window-budget claim: starting from an admitted history
acc with no cooldown, a further run of checks whose times keep every stored
stamp in-window admits every check and appends the times in order. -/
theorem runChecks_all_admits (cfg : RateLimits) :
    ∀ (l acc : List Nat),
      acc.length + l.length ≤ cfg.maxMessages →
      (∀ b ∈ l, ∀ a ∈ acc, b - a ≤ cfg.timeframe) →
      (∀ b ∈ l, ∀ a ∈ l, b - a ≤ cfg.timeframe) →
      runChecks cfg (some { timestamps := acc, cooldownUntil := 0 }) l
        = (List.replicate l.length false,
            some { timestamps := acc ++ l, cooldownUntil := 0 }) :=
  by
    intro l
    induction l with
    | nil => intro acc _ _ _; simp [runChecks]
    | cons c ns ih =>
      intro acc hlen hacc hl
      have hkeep : acc.filter (fun t => c - t ≤ cfg.timeframe) = acc := by
        apply List.filter_eq_self.mpr
        intro a ha
        exact decide_eq_true (hacc c (List.mem_cons_self c ns) a ha)
      have hlt : acc.length < cfg.maxMessages := by
        simp only [List.length_cons] at hlen
        omega
      have hnotfull : ¬ cfg.maxMessages ≤
          (acc.filter (fun t => c - t ≤ cfg.timeframe)).length := by
        rw [hkeep]
        omega
      have hstep := isUserRateLimitedState_admits cfg acc 0 c (Nat.not_lt_zero c) hnotfull
      rw [hkeep] at hstep
      have hlen2 : (acc ++ [c]).length + ns.length ≤ cfg.maxMessages := by
        simp only [List.length_append, List.length_cons, List.length_nil] at hlen ⊢
        omega
      have hacc2 : ∀ b ∈ ns, ∀ a ∈ acc ++ [c], b - a ≤ cfg.timeframe := by
        intro b hb a ha
        rcases List.mem_append.mp ha with ha | ha
        · exact hacc b (List.mem_cons_of_mem c hb) a ha
        · have heq : a = c := List.mem_singleton.mp ha
          rw [heq]
          exact hl b (List.mem_cons_of_mem c hb) c (List.mem_cons_self c ns)
      have hl2 : ∀ b ∈ ns, ∀ a ∈ ns, b - a ≤ cfg.timeframe := by
        intro b hb a ha
        exact hl b (List.mem_cons_of_mem c hb) a (List.mem_cons_of_mem c ha)
      have hres := ih (acc ++ [c]) hlen2 hacc2 hl2
      simp only [runChecks, hstep, hres]
      simp [List.replicate_succ, List.append_assoc]

/-- C1: for one fresh identity, any sequence of at most maxMessages checks
whose times pairwise stay within one timeframe window is admitted on every
call, and when the budget is exactly filled, a further check still inside the
window is rejected and arms cooldownUntil to exactly the now of that check plus
cooldown. -/
theorem admits_until_budget_then_cooldown (cfg : RateLimits) (l : List Nat) (n : Nat)
    (hmax : 0 < cfg.maxMessages)
    (hlen : l.length ≤ cfg.maxMessages)
    (hwin : ∀ b ∈ l, ∀ a ∈ l, b - a ≤ cfg.timeframe) :
    (runChecks cfg none l).1 = List.replicate l.length false ∧
      (l.length = cfg.maxMessages → (∀ a ∈ l, n - a ≤ cfg.timeframe) →
        isUserRateLimitedState cfg (runChecks cfg none l).2 n
          = (true, { timestamps := l, cooldownUntil := n + cfg.cooldown })) :=
  by
    cases l with
    | nil =>
      refine ⟨by simp [runChecks], ?_⟩
      intro habs
      simp only [List.length_nil] at habs
      omega
    | cons t ts =>
      have hfirst : isUserRateLimitedState cfg none t
          = (false, { timestamps := [t], cooldownUntil := 0 }) := rfl
      have h1 : ([t] : List Nat).length + ts.length ≤ cfg.maxMessages := by
        simp only [List.length_cons, List.length_nil] at hlen ⊢
        omega
      have h2 : ∀ b ∈ ts, ∀ a ∈ ([t] : List Nat), b - a ≤ cfg.timeframe := by
        intro b hb a ha
        have heq : a = t := List.mem_singleton.mp ha
        rw [heq]
        exact hwin b (List.mem_cons_of_mem t hb) t (List.mem_cons_self t ts)
      have h3 : ∀ b ∈ ts, ∀ a ∈ ts, b - a ≤ cfg.timeframe := by
        intro b hb a ha
        exact hwin b (List.mem_cons_of_mem t hb) a (List.mem_cons_of_mem t ha)
      have hrest := runChecks_all_admits cfg ts [t] h1 h2 h3
      have hrun : runChecks cfg none (t :: ts)
          = (List.replicate (t :: ts).length false,
              some { timestamps := t :: ts, cooldownUntil := 0 }) := by
        simp only [runChecks, hfirst, hrest]
        simp [List.replicate_succ]
      refine ⟨by simp [hrun], ?_⟩
      intro hfull hn
      have hkeep : (t :: ts).filter (fun a => n - a ≤ cfg.timeframe) = t :: ts := by
        apply List.filter_eq_self.mpr
        intro a ha
        exact decide_eq_true (hn a ha)
      have hge : cfg.maxMessages ≤
          ((t :: ts).filter (fun a => n - a ≤ cfg.timeframe)).length := by
        rw [hkeep, hfull]
      have hstep := isUserRateLimitedState_full cfg (t :: ts) 0 n (Nat.not_lt_zero n) hge
      rw [hkeep] at hstep
      rw [hrun]
      exact hstep

/-- Witness for admits_until_budget_then_cooldown on the strict profile with
five checks at t = 0..4 and a sixth at t = 5. -/
theorem admits_until_budget_then_cooldown_witness :
    (runChecks RATE_LIMITS none [0, 1, 2, 3, 4]).1 = List.replicate 5 false ∧
    isUserRateLimitedState RATE_LIMITS (runChecks RATE_LIMITS none [0, 1, 2, 3, 4]).2 5
      = (true, { timestamps := [0, 1, 2, 3, 4], cooldownUntil := 5 + 300000 }) :=
  by
    have h := admits_until_budget_then_cooldown RATE_LIMITS [0, 1, 2, 3, 4] 5
      (by decide) (by decide) (by decide)
    exact ⟨h.1, h.2 (by decide) (by decide)⟩

/-- C3: for an identity with an armed cooldown whose stored stamps all predate
the arming point (as every reachable armed state does), the first check at or
after cooldownUntil is admitted and leaves exactly the one new timestamp: with
cooldown longer than timeframe, every pre-cooldown entry has fallen out of the
window, however many were stored. -/
theorem cooldown_expiry_resets_window (cfg : RateLimits) (s : RateState) (now : Nat)
    (hmax : 0 < cfg.maxMessages)
    (htc : cfg.timeframe < cfg.cooldown)
    (harmed : s.cooldownUntil ≠ 0)
    (hstamps : ∀ t ∈ s.timestamps, t + cfg.cooldown ≤ s.cooldownUntil)
    (hnow : s.cooldownUntil ≤ now) :
    isUserRateLimitedState cfg (some s) now
      = (false, { timestamps := [now], cooldownUntil := s.cooldownUntil }) :=
  by
    obtain ⟨l, cd⟩ := s
    simp only at hstamps hnow harmed ⊢
    have hdrop : l.filter (fun t => now - t ≤ cfg.timeframe) = [] := by
      apply List.filter_eq_nil_iff.mpr
      intro t ht
      have h1 : t + cfg.cooldown ≤ now := le_trans (hstamps t ht) hnow
      simp only [decide_eq_true_eq]
      omega
    have hnotfull : ¬ cfg.maxMessages ≤
        (l.filter (fun t => now - t ≤ cfg.timeframe)).length := by
      rw [hdrop]
      simp only [List.length_nil]
      omega
    have hstep := isUserRateLimitedState_admits cfg l cd now (Nat.not_lt.mpr hnow) hnotfull
    rw [hstep, hdrop]
    simp

/-- Witness for cooldown_expiry_resets_window: strict profile, three old
stamps, cooldown armed until 300300, checked exactly at 300300. -/
theorem cooldown_expiry_resets_window_witness :
    isUserRateLimitedState RATE_LIMITS
        (some { timestamps := [100, 200, 300], cooldownUntil := 300300 }) 300300
      = (false, { timestamps := [300300], cooldownUntil := 300300 }) :=
  cooldown_expiry_resets_window RATE_LIMITS
    { timestamps := [100, 200, 300], cooldownUntil := 300300 } 300300
    (by decide) (by decide) (by decide) (by decide) (by decide)

/-- C6: after a completed check on an identity not in active cooldown, given
the pre-state already satisfied the length bound, the stored record has no
entry older than now minus timeframe and at most maxMessages entries. -/
theorem check_preserves_invariants (cfg : RateLimits) (data : Option RateState) (now : Nat)
    (hmax : 0 < cfg.maxMessages)
    (hpre : ∀ s, data = some s → s.cooldownUntil ≤ now ∧
      s.timestamps.length ≤ cfg.maxMessages) :
    (∀ t ∈ ((isUserRateLimitedState cfg data now).2).timestamps,
        now - t ≤ cfg.timeframe) ∧
      ((isUserRateLimitedState cfg data now).2).timestamps.length ≤ cfg.maxMessages :=
  by
    match data with
    | none =>
      refine ⟨?_, ?_⟩
      · intro t ht
        have heq : t = now := by simpa [isUserRateLimitedState] using ht
        simp [heq]
      · simpa [isUserRateLimitedState] using hmax
    | some s =>
      obtain ⟨hcd, hlen⟩ := hpre s rfl
      obtain ⟨l, cd⟩ := s
      simp only at hcd hlen ⊢
      have h1 : ¬ now < cd := Nat.not_lt.mpr hcd
      by_cases hfull :
          cfg.maxMessages ≤ (l.filter (fun t => now - t ≤ cfg.timeframe)).length
      · rw [isUserRateLimitedState_full cfg l cd now h1 hfull]
        refine ⟨?_, ?_⟩
        · intro t ht
          exact of_decide_eq_true (List.mem_filter.mp ht).2
        · exact le_trans (List.length_filter_le _ _) hlen
      · rw [isUserRateLimitedState_admits cfg l cd now h1 hfull]
        refine ⟨?_, ?_⟩
        · intro t ht
          rcases List.mem_append.mp ht with ht | ht
          · exact of_decide_eq_true (List.mem_filter.mp ht).2
          · have heq : t = now := List.mem_singleton.mp ht
            rw [heq]
            simp
        · have hlt : (l.filter (fun t => now - t ≤ cfg.timeframe)).length < cfg.maxMessages :=
            Nat.not_le.mp hfull
          simp only [List.length_append, List.length_cons, List.length_nil]
          omega

/-- Witness for check_preserves_invariants: strict profile, a record holding
four stamps, two of them stale, checked at t = 70000. -/
theorem check_preserves_invariants_witness :
    (∀ t ∈ ((isUserRateLimitedState RATE_LIMITS
        (some { timestamps := [0, 5000, 20000, 65000], cooldownUntil := 0 }) 70000).2).timestamps,
        70000 - t ≤ RATE_LIMITS.timeframe) ∧
      ((isUserRateLimitedState RATE_LIMITS
        (some { timestamps := [0, 5000, 20000, 65000], cooldownUntil := 0 }) 70000).2).timestamps.length
        ≤ RATE_LIMITS.maxMessages :=
  check_preserves_invariants RATE_LIMITS
    (some { timestamps := [0, 5000, 20000, 65000], cooldownUntil := 0 }) 70000
    (by decide)
    (fun s hs => by
      cases hs
      exact ⟨by decide, by decide⟩)

/-- C5: with the strict profile (maxMessages = 5, timeframe = 60000 ms), after
five admitted events at t = 0, 10, 20, 30, 40, a sixth check at t = 61000 is
admitted (the t = 0 entry has left the window) while a sixth check at
t = 59000 is rejected. -/
theorem window_slides_correctly :
    (runChecks RATE_LIMITS none [0, 10, 20, 30, 40, 61000]).1
      = [false, false, false, false, false, false] ∧
    (runChecks RATE_LIMITS none [0, 10, 20, 30, 40, 59000]).1
      = [false, false, false, false, false, true] :=
  by decide

/-- Frame lemma: a single check for one identity never changes the record
stored for any other identity. -/
theorem isUserRateLimited_frame (cfg : RateLimits) (m : Store) (idA idB : String)
    (now : Nat) (hne : idB ≠ idA) :
    (isUserRateLimited cfg m idA now).2 idB = m idB :=
  by
    simp [isUserRateLimited, hne]

/-- Frame lemma for histories: a whole sequence of checks for one identity
never changes the record stored for any other identity. -/
theorem runStore_frame (cfg : RateLimits) (idA idB : String) (hne : idB ≠ idA) :
    ∀ (nows : List Nat) (m : Store), runStore cfg m idA nows idB = m idB :=
  by
    intro nows
    induction nows with
    | nil => intro m; rfl
    | cons n ns ih =>
      intro m
      have hstep := isUserRateLimited_frame cfg m idA idB n hne
      calc runStore cfg m idA (n :: ns) idB
          = runStore cfg (isUserRateLimited cfg m idA n).2 idA ns idB := rfl
        _ = (isUserRateLimited cfg m idA n).2 idB := ih _
        _ = m idB := hstep

/-- C7: checks for distinct identities are fully independent: any history of
checks for identity A (budget exhaustion and cooldown arming included) leaves
the record of identity B untouched, and therefore the Admit/Reject outcome of a
subsequent check for B is exactly what it would have been on the original
map. -/
theorem distinct_identities_independent (cfg : RateLimits) (m : Store)
    (idA idB : String) (hne : idB ≠ idA) (nows : List Nat) (now : Nat) :
    runStore cfg m idA nows idB = m idB ∧
      (isUserRateLimited cfg (runStore cfg m idA nows) idB now).1
        = (isUserRateLimited cfg m idB now).1 :=
  by
    have hframe := runStore_frame cfg idA idB hne nows m
    refine ⟨hframe, ?_⟩
    simp only [isUserRateLimited]
    rw [hframe]

/-- Witness for distinct_identities_independent: identity a exhausts nothing
for identity b over a three-check history on the empty map. -/
theorem distinct_identities_independent_witness :
    ("b" : String) ≠ "a" ∧
    runStore RATE_LIMITS (fun _ => none) "a" [0, 1, 2] "b" = (fun _ => none : Store) "b" ∧
    (isUserRateLimited RATE_LIMITS (runStore RATE_LIMITS (fun _ => none) "a" [0, 1, 2]) "b" 5).1
      = (isUserRateLimited RATE_LIMITS (fun _ => none) "b" 5).1 :=
  ⟨by decide,
    (distinct_identities_independent RATE_LIMITS (fun _ => none) "a" "b" (by decide) [0, 1, 2] 5).1,
    (distinct_identities_independent RATE_LIMITS (fun _ => none) "a" "b" (by decide) [0, 1, 2] 5).2⟩

/-- C9: the two deployment profiles run the same admission logic and differ
only in the budget constant: each per-file literal function equals the one
parameterized function at its profile configuration, the two profiles agree
on timeframe (60000 ms) and cooldown (300000 ms), and their budgets are 5 and
100 respectively. -/
theorem profiles_same_logic_differ_in_budget :
    (∀ data now, isUserRateLimitedStrict data now
        = isUserRateLimitedState RATE_LIMITS data now) ∧
    (∀ data now, isUserRateLimitedPermissive data now
        = isUserRateLimitedState RATE_LIMITS_PERMISSIVE data now) ∧
    RATE_LIMITS.timeframe = RATE_LIMITS_PERMISSIVE.timeframe ∧
    RATE_LIMITS.cooldown = RATE_LIMITS_PERMISSIVE.cooldown ∧
    RATE_LIMITS.maxMessages = 5 ∧
    RATE_LIMITS_PERMISSIVE.maxMessages = 100 :=
  by
    refine ⟨?_, ?_, rfl, rfl, rfl, rfl⟩
    · intro data now
      cases data <;> rfl
    · intro data now
      cases data <;> rfl

/-- C10: a check that returns Reject never appends the current timestamp:
after any rejecting check, the stored timestamp list is a sublist of the list
stored before the check, so a rejected event never adds to the window budget
seen by later checks. -/
theorem reject_never_appends (cfg : RateLimits) (data : Option RateState) (now : Nat)
    (h : (isUserRateLimitedState cfg data now).1 = true) :
    ((isUserRateLimitedState cfg data now).2).timestamps.Sublist
      (match data with
       | none => []
       | some s => s.timestamps) :=
  by
    match data with
    | none =>
      exact absurd h (by simp [isUserRateLimitedState])
    | some s =>
      obtain ⟨l, cd⟩ := s
      by_cases hcd : now < cd
      · rw [isUserRateLimitedState_cooldown cfg l cd now hcd]
      · by_cases hfull :
            cfg.maxMessages ≤ (l.filter (fun t => now - t ≤ cfg.timeframe)).length
        · rw [isUserRateLimitedState_full cfg l cd now hcd hfull]
          exact List.filter_sublist l
        · rw [isUserRateLimitedState_admits cfg l cd now hcd hfull] at h
          simp at h

/-- Witness for reject_never_appends: strict profile, full window of five
stamps, rejecting check at t = 5 keeps the stored list a sublist of the old
one. -/
theorem reject_never_appends_witness :
    (isUserRateLimitedState RATE_LIMITS
        (some { timestamps := [0, 1, 2, 3, 4], cooldownUntil := 0 }) 5).1 = true ∧
    ((isUserRateLimitedState RATE_LIMITS
        (some { timestamps := [0, 1, 2, 3, 4], cooldownUntil := 0 }) 5).2).timestamps.Sublist
      [0, 1, 2, 3, 4] :=
  ⟨by decide,
    reject_never_appends RATE_LIMITS
      (some { timestamps := [0, 1, 2, 3, 4], cooldownUntil := 0 }) 5 (by decide)⟩
